import Mathlib

/-
Verification development for the CT DEEP label balancer
(`label_balancer.py` together with its helpers in `utils.py`).

Embedding conventions:
  * images are modelled by their pixel dimensions (rows, cols); the geometric
    claims under study only concern sizes, so pixel payloads are abstracted;
  * directory listings are lists of file-name strings; Python dicts are
    insertion-ordered association lists, as in CPython;
  * OpenCV primitives (`copyMakeBorder`, `warpAffine`, `resize`, numpy slicing)
    are modelled by their documented size semantics; `cv.resize` rounds the
    scaled size with `cvRound`, which rounds half to even;
  * Python float arithmetic is idealised as exact rational arithmetic, except
    that division by zero is kept partial: Python raises `ZeroDivisionError`,
    modelled by an `Option` result (`none` = the exception was raised);
  * `np.random.choice([1,2,3], n, p, replace=True)` is modelled by an oracle
    `Nat → Fin 3` giving the i-th categorical draw;
  * a Python local variable that a branch reads without ever assigning raises
    `UnboundLocalError`; such a local is modelled as an `Option`, `none`
    meaning "not assigned on this control path".
-/

/-! ## Module-level configuration constants (`label_balancer.py`, lines 52-69) -/

def THETA : ℤ := 5

def FACT : ℚ := 13/10

def MULTIPLIER : ℕ := 6

def TOTAL_MULTIPLIER : ℕ := MULTIPLIER * 2 + 1

/-! ## `utils.py`: geometric transform pipeline, dimension semantics

Every function mirrors the function of the same name in `utils.py`; an image
is represented by its `(rows, cols)` pair, which is all these claims need. -/

/-- OpenCV `cvRound`: round to nearest, half to even. -/
def cvRound (q : ℚ) : ℤ :=
  if q - ⌊q⌋ < 1/2 then ⌊q⌋
  else if 1/2 < q - ⌊q⌋ then ⌊q⌋ + 1
  else if ⌊q⌋ % 2 = 0 then ⌊q⌋ else ⌊q⌋ + 1

/-- `Pad_img`: `copyMakeBorder` with `floor(row/2)` rows on top and bottom and
`floor(col/2)` columns on each side. -/
def Pad_img (rows cols : ℕ) : ℕ × ℕ :=
  (rows + 2 * (rows / 2), cols + 2 * (cols / 2))

/-- `Flip_img`: `cv.flip(img, 1)` preserves dimensions. -/
def Flip_img (rows cols : ℕ) : ℕ × ℕ := (rows, cols)

/-- `Get_center`: `ceil((coord-1)/2.0)`. -/
def Get_center (coord : ℕ) : ℤ := ⌈((coord : ℚ) - 1) / 2⌉

/-- `Rotate_img`: `warpAffine` with destination size `(col, row)` preserves
dimensions. -/
def Rotate_img (rows cols : ℕ) : ℕ × ℕ := (rows, cols)

/-- `Upsample_img`: `cv.resize` with scale factors `(FACT, FACT)`; OpenCV
computes the destination size as `cvRound(size * factor)` per axis. -/
def Upsample_img (rows cols : ℕ) (fact : ℚ) : ℕ × ℕ :=
  ((cvRound ((rows : ℚ) * fact)).toNat, (cvRound ((cols : ℚ) * fact)).toNat)

/-- Length of the numpy basic slice `a[i:j]` over an axis of length `n`:
negative indices wrap by `n`, then both are clamped into `[0, n]`. -/
def npSliceLen (n : ℕ) (i j : ℤ) : ℕ :=
  let norm : ℤ → ℤ := fun k => if k < 0 then max (k + (n : ℤ)) 0 else min k (n : ℤ)
  (norm j - norm i).toNat

/-- `Center_crop`: `img[centery-ogy:centery+ogy, centerx-ogx:centerx+ogx]`. -/
def Center_crop (rows cols og_rows og_cols : ℕ) : ℕ × ℕ :=
  (npSliceLen rows (Get_center rows - Get_center og_rows) (Get_center rows + Get_center og_rows),
   npSliceLen cols (Get_center cols - Get_center og_cols) (Get_center cols + Get_center og_cols))

/-- `Data_augmentation`: optional flip, pad, rotate, upsample, centre-crop to
the original size.  The rotation angle does not influence any dimension. -/
def Data_augmentation (rows cols : ℕ) (theta : ℤ) (fact : ℚ) (flipped : Bool) : ℕ × ℕ :=
  if flipped = false then
    let pad := Pad_img rows cols
    let rot := Rotate_img pad.1 pad.2
    let up := Upsample_img rot.1 rot.2 fact
    Center_crop up.1 up.2 rows cols
  else
    let flip := Flip_img rows cols
    let pad := Pad_img flip.1 flip.2
    let rot := Rotate_img pad.1 pad.2
    let up := Upsample_img rot.1 rot.2 fact
    Center_crop up.1 up.2 rows cols

/-! ## Python string helpers used for names and site ids -/

/-- `name.split(sep)[0]`: the prefix before the first separator. -/
def pySplitHead (sep : Char) (s : String) : String :=
  String.mk (s.toList.takeWhile (fun c => c ≠ sep))

/-- `os.path.basename`: the part after the last `/`. -/
def osBasename (p : String) : String :=
  String.mk ((p.toList.reverse.takeWhile (fun c => c ≠ '/')).reverse)

/-- `os.path.join` on POSIX paths. -/
def osJoin (a b : String) : String := a ++ "/" ++ b

/-! ## `utils.py`: `SortDict` (Python `sorted(dict.items(), key=value)`)

Python `sorted` is a stable sort; an insertion sort that inserts after all
earlier entries with a smaller-or-equal value realises exactly that order. -/

/-- Stable insertion of one `(site, count)` entry by ascending count: the
entry walks past strictly smaller counts only, so it lands before every
equal-count entry already present — since `SortDict` folds from the right,
earlier dict entries end up before later ones on equal counts, exactly the
stability Python's `sorted` guarantees. -/
def insertByCount (x : String × ℕ) : List (String × ℕ) → List (String × ℕ)
  | [] => [x]
  | y :: ys => if y.2 < x.2 then y :: insertByCount x ys else x :: y :: ys

/-- `SortDict`: the dict items sorted by value ascending, stably. -/
def SortDict : List (String × ℕ) → List (String × ℕ)
  | [] => []
  | x :: xs => insertByCount x (SortDict xs)

/-! ## `label_balancer.py`: `DataAugmentation` (the per-label scheduler) -/

/-- One write performed by the scheduler: a call
`cv.imwrite(dest_dir/name, Data_augmentation(src, theta, fact, flipped))`. -/
structure AugWrite where
  src : String
  name : String
  theta : ℤ
  fact : ℚ
  flipped : Bool
deriving Repr, DecidableEq

/-- The generated file name
`{site}_D{date}_{date}_{siteIndex}_{i}_ROT_AUG_{label}.JPG`. -/
def mkAugName (site date : String) (siteIndex i : ℕ) (label : String) : String :=
  pySplitHead '_' (osBasename site) ++ "_D" ++ date ++ "_" ++ date ++ "_" ++
    Nat.repr siteIndex ++ "_" ++ Nat.repr i ++ "_ROT_AUG_" ++ label ++ ".JPG"

/-- Insert one file into the insertion-ordered site buckets
(the `site_path` dict; `site_ids_count` is recovered as the bucket lengths). -/
def addToGroups : List (String × List String) → String → String → List (String × List String)
  | [], k, p => [(k, [p])]
  | (k0, ps) :: rest, k, p =>
    if k0 = k then (k0, ps ++ [p]) :: rest
    else (k0, ps) :: addToGroups rest k p

/-- The grouping loop of `DataAugmentation`: builds `site_path`, bucketing the
full paths `label_dir/file` by `file.split('_')[0]` in insertion order. -/
def groupBySite (label_dir : String) : List String → List (String × List String) → List (String × List String)
  | [], acc => acc
  | f :: fs, acc => groupBySite label_dir fs (addToGroups acc (pySplitHead '_' f) (osJoin label_dir f))

/-- Python dict lookup `d[k]` on the association list. -/
def dictGet (d : List (String × List String)) (k : String) : List String :=
  match d with
  | [] => []
  | (k0, v) :: rest => if k0 = k then v else dictGet rest k

/-- `site_path` for a label directory listing. -/
def siteGroups (label_dir : String) (image_list : List String) : List (String × List String) :=
  groupBySite label_dir image_list []

/-- `site_ids_count` as an item list: each site with its image count. -/
def siteIdsCount (label_dir : String) (image_list : List String) : List (String × ℕ) :=
  (siteGroups label_dir image_list).map (fun g => (g.1, g.2.length))

/-- `sorted_list = SortDict(site_ids_count)`. -/
def sortedSiteList (label_dir : String) (image_list : List String) : List (String × ℕ) :=
  SortDict (siteIdsCount label_dir image_list)

/-- Innermost loop `for i in range(MULTIPLIER*2)` of the scheduler, for one
image.  State threaded exactly as in the source: `switch` alternates between
`-1` (plain rotation) and `1` (flipped rotation), `theta`/`fact` advance by
`5`/`0.3` every second iteration, `counter` counts written images, and the
check `counter > images_to_augment` returns from the whole call (third
component `true` means the early `return` was taken). -/
def augVariants (target : ℤ) (label date : String) (siteIndex : ℕ) (img : String) :
    List ℕ → ℤ → ℤ → ℚ → ℤ → ℤ → List AugWrite × ℤ × Bool
  | [], _, _, _, _, counter => ([], counter, false)
  | i :: rest, switch, theta, fact, se, counter =>
    if counter > target then ([], counter, true)
    else
      let name := mkAugName img date siteIndex i label
      let w : Option AugWrite :=
        if switch = -1 then some ⟨img, name, theta, fact, false⟩
        else if switch = 1 then some ⟨img, name, theta, fact, true⟩
        else none
      let counter2 := if w.isSome then counter + 1 else counter
      let theta2 := if se % 2 = 0 then theta + 5 else theta
      let fact2 := if se % 2 = 0 then fact + 3/10 else fact
      let r := augVariants target label date siteIndex img rest (switch * -1) theta2 fact2 (se + 1) counter2
      (w.toList ++ r.1, r.2.1, r.2.2)

/-- Middle loop `for site in site_path[element[0]]`: each image of the site
group gets a fresh `switch/theta/fact` progression; `site_index` advances per
image; an early return propagates outward. -/
def augSiteImages (target : ℤ) (label date : String) (m : ℕ) (theta0 : ℤ) (fact0 : ℚ) :
    List String → ℕ → ℤ → List AugWrite × ℤ × Bool
  | [], _, counter => ([], counter, false)
  | img :: rest, siteIndex, counter =>
    let r := augVariants target label date siteIndex img (List.range (m * 2)) (-1) theta0 fact0 1 counter
    if r.2.2 then r
    else
      let r2 := augSiteImages target label date m theta0 fact0 rest (siteIndex + 1) r.2.1
      (r.1 ++ r2.1, r2.2)

/-- Outer loop `for element in sorted_list`: iterates the site groups in
sorted order, fetching each group's paths from the `site_path` dict. -/
def augGroups (target : ℤ) (label date : String) (m : ℕ) (theta0 : ℤ) (fact0 : ℚ)
    (site_path : List (String × List String)) :
    List (String × ℕ) → ℤ → List AugWrite × ℤ × Bool
  | [], counter => ([], counter, false)
  | el :: rest, counter =>
    let r := augSiteImages target label date m theta0 fact0 (dictGet site_path el.1) 0 counter
    if r.2.2 then r
    else
      let r2 := augGroups target label date m theta0 fact0 site_path rest r.2.1
      (r.1 ++ r2.1, r2.2)

/-- `DataAugmentation(images_to_augment, label_dir, dest_dir, label)`:
the whole scheduler invocation, returning the ordered list of writes it
performs.  `image_list` is the directory listing of `label_dir`, `date` the
`strftime("%m%d%y")` stamp, and `m`, `theta0`, `fact0` the globals
`MULTIPLIER`, `THETA`, `FACT`.  The counter starts at `1`. -/
def DataAugmentation (images_to_augment : ℤ) (label_dir label date : String)
    (m : ℕ) (theta0 : ℤ) (fact0 : ℚ) (image_list : List String) : List AugWrite :=
  (augGroups images_to_augment label date m theta0 fact0
    (siteGroups label_dir image_list) (sortedSiteList label_dir image_list) 1).1

/-! ## `label_balancer.py`: `LabelBalancer` (the orchestrator)

The run is modelled as a function of the six label directory listings, the
date stamp, and the sampling oracle.  Its observable effects are collected in
a `RunResult`: whether the six original directories were copied, the
augmentation writes performed (tagged with their destination label number),
and the terminal outcome. -/

/-- The six label directory listings (`os.listdir` of `1` .. `6`). -/
structure Listings where
  l1 : List String
  l2 : List String
  l3 : List String
  l4 : List String
  l5 : List String
  l6 : List String
deriving Repr, DecidableEq

/-- `category_1_count`: total images of labels 1-3. -/
def cat1Count (ls : Listings) : ℕ := ls.l1.length + ls.l2.length + ls.l3.length

/-- `category_2_count`: total images of labels 4-6. -/
def cat2Count (ls : Listings) : ℕ := ls.l4.length + ls.l5.length + ls.l6.length

/-- `images_to_augment`, the category-level deficit `|count_1 - count_2|`. -/
def categoryDeficit (ls : Listings) : ℕ :=
  if cat1Count ls > cat2Count ls then cat1Count ls - cat2Count ls
  else cat2Count ls - cat1Count ls

/-- The feasibility test `count * TOTAL_MULTIPLIER < images_to_augment`
as written in both branches (both multiply `category_1_count`). -/
def feasGate (tm count deficit : ℕ) : Bool := decide (count * tm < deficit)

/-- The normalised complementary sampling probabilities: each label's weight
is `1 - split_i / total`, then the three weights are divided by their sum.
Python's `/` raises `ZeroDivisionError` on a zero denominator (line 242 when
`total` is zero, line 248 when the weight sum is zero), so the computation is
partial: `none` models the raised exception, `some` the computed triple. -/
def normalizedProbs (s1 s2 s3 total : ℕ) : Option (ℚ × ℚ × ℚ) :=
  if (total : ℚ) = 0 then none
  else
    let p1 : ℚ := 1 - (s1 : ℚ) / (total : ℚ)
    let p2 : ℚ := 1 - (s2 : ℚ) / (total : ℚ)
    let p3 : ℚ := 1 - (s3 : ℚ) / (total : ℚ)
    let pt := p1 + p2 + p3
    if pt = 0 then none
    else some (p1 / pt, p2 / pt, p3 / pt)

/-- The list produced by `np.random.choice([1,2,3], n, p, replace=True)`:
`n` draws, the i-th being the oracle's i-th categorical choice. -/
def drawSample (oracle : ℕ → Fin 3) (n : ℕ) : List ℕ :=
  (List.range n).map (fun i => (oracle i).val + 1)

/-- `images_to_aug_per_label = [sample.count(1), sample.count(2), sample.count(3)]`. -/
def tallySample (sample : List ℕ) : List ℕ :=
  [sample.count 1, sample.count 2, sample.count 3]

/-- Terminal outcome of one `LabelBalancer()` run. -/
inductive Outcome where
  | abortedInfeasible
  | zeroDivisionError
  | unboundLocalError (var : String)
  | completed
deriving Repr, DecidableEq

/-- Observable effects of one `LabelBalancer()` run. -/
structure RunResult where
  copied : Bool
  augWrites : List (ℕ × AugWrite)
  outcome : Outcome
deriving Repr, DecidableEq

/-- `LabelBalancer()`.  `dataset_dir` is the source root; `ls` holds the six
directory listings; `date` is the run's date stamp; `oracle` the random
sampler.  Control flow mirrors the source: the branch on
`category_1_count > category_2_count`, the feasibility gate (both branches
multiply `category_1_count` by `TOTAL_MULTIPLIER`), the unconditional copy of
all six label directories once the gate passes, the complement-probability
computation (whose division raises `ZeroDivisionError` when the reference
category count is zero — before the sampling, the validation print and the
dispatch ever run), the categorical sampling over the deficient category's
labels, the validation print that in the first branch reads the local
`category_1_count_split` which no statement of that branch assigns (an
`UnboundLocalError`, modelled by the `none` case), and the per-label dispatch
of `DataAugmentation`. -/
def LabelBalancer (dataset_dir : String) (ls : Listings) (date : String)
    (oracle : ℕ → Fin 3) : RunResult :=
  let category_1_count := cat1Count ls
  let category_2_count := cat2Count ls
  if category_1_count > category_2_count then
    let images_to_augment := category_1_count - category_2_count
    if feasGate TOTAL_MULTIPLIER category_1_count images_to_augment then
      { copied := false, augWrites := [], outcome := .abortedInfeasible }
    else
      match normalizedProbs ls.l4.length ls.l5.length ls.l6.length category_2_count with
      | none =>
        { copied := true, augWrites := [], outcome := .zeroDivisionError }
      | some _probs =>
        let sample := drawSample oracle images_to_augment
        let alloc := tallySample sample
        let category_1_count_split : Option (List ℕ) := none
        match category_1_count_split with
        | none =>
          { copied := true, augWrites := [], outcome := .unboundLocalError "category_1_count_split" }
        | some _ =>
          let w4 := DataAugmentation ((alloc.getD 0 0 : ℕ) : ℤ) (osJoin dataset_dir "4") "L4" date
            MULTIPLIER THETA FACT ls.l4
          let w5 := DataAugmentation ((alloc.getD 1 0 : ℕ) : ℤ) (osJoin dataset_dir "5") "L5" date
            MULTIPLIER THETA FACT ls.l5
          let w6 := DataAugmentation ((alloc.getD 2 0 : ℕ) : ℤ) (osJoin dataset_dir "6") "L6" date
            MULTIPLIER THETA FACT ls.l6
          { copied := true,
            augWrites := w4.map (fun w => (4, w)) ++ w5.map (fun w => (5, w)) ++ w6.map (fun w => (6, w)),
            outcome := .completed }
  else
    let images_to_augment := category_2_count - category_1_count
    if feasGate TOTAL_MULTIPLIER category_1_count images_to_augment then
      { copied := false, augWrites := [], outcome := .abortedInfeasible }
    else
      let category_1_count_split : Option (List ℕ) :=
        some [ls.l1.length, ls.l2.length, ls.l3.length]
      match normalizedProbs ls.l1.length ls.l2.length ls.l3.length category_1_count with
      | none =>
        { copied := true, augWrites := [], outcome := .zeroDivisionError }
      | some _probs =>
        let sample := drawSample oracle images_to_augment
        let alloc := tallySample sample
        match category_1_count_split with
        | none =>
          { copied := true, augWrites := [], outcome := .unboundLocalError "category_1_count_split" }
        | some _ =>
          let w1 := DataAugmentation ((alloc.getD 0 0 : ℕ) : ℤ) (osJoin dataset_dir "1") "L1" date
            MULTIPLIER THETA FACT ls.l1
          let w2 := DataAugmentation ((alloc.getD 1 0 : ℕ) : ℤ) (osJoin dataset_dir "2") "L2" date
            MULTIPLIER THETA FACT ls.l2
          let w3 := DataAugmentation ((alloc.getD 2 0 : ℕ) : ℤ) (osJoin dataset_dir "3") "L3" date
            MULTIPLIER THETA FACT ls.l3
          { copied := true,
            augWrites := w1.map (fun w => (1, w)) ++ w2.map (fun w => (2, w)) ++ w3.map (fun w => (3, w)),
            outcome := .completed }

/-- Image count of category 1 in the output tree after a run: the copied
originals of labels 1-3 plus the augmented images written into labels 1-3. -/
def outCount1 (ls : Listings) (r : RunResult) : ℕ :=
  cat1Count ls + (r.augWrites.filter (fun p => p.1 ≤ 3)).length

/-- Image count of category 2 in the output tree after a run: the copied
originals of labels 4-6 plus the augmented images written into labels 4-6. -/
def outCount2 (ls : Listings) (r : RunResult) : ℕ :=
  cat2Count ls + (r.augWrites.filter (fun p => 4 ≤ p.1)).length

/-- Total number of images across the site groups that `augGroups` visits. -/
def groupsSize (site_path : List (String × List String)) (l : List (String × ℕ)) : ℕ :=
  (l.map (fun el => (dictGet site_path el.1).length)).sum

/-! ## Write-count analysis of the scheduler loops -/

theorem augVariants_spec (target : ℤ) (label date : String) (siteIndex : ℕ) (img : String)
    (is : List ℕ) : ∀ (switch theta : ℤ) (fact : ℚ) (se counter : ℤ),
    switch = -1 ∨ switch = 1 →
    (augVariants target label date siteIndex img is switch theta fact se counter).1.length
        = min is.length (target - counter + 1).toNat
      ∧ (augVariants target label date siteIndex img is switch theta fact se counter).2.1
        = counter + ((min is.length (target - counter + 1).toNat : ℕ) : ℤ)
      ∧ ((augVariants target label date siteIndex img is switch theta fact se counter).2.2 = true
        ↔ (target - counter + 1 < (is.length : ℤ) ∧ 0 < is.length)) := by
  induction is with
  | nil =>
    intro switch theta fact se counter hsw
    simp [augVariants]
  | cons i rest ih =>
    intro switch theta fact se counter hsw
    simp only [augVariants]
    by_cases hc : counter > target
    · rw [if_pos hc]
      refine ⟨by simp; omega, by simp; omega, by simp; omega⟩
    · rw [if_neg hc]
      rcases hsw with h | h <;> subst h
      · obtain ⟨h1, h2, h3⟩ := ih 1 (if se % 2 = 0 then theta + 5 else theta)
          (if se % 2 = 0 then fact + 3/10 else fact) (se + 1) (counter + 1) (Or.inr rfl)
        norm_num [Option.toList, Option.isSome] at h1 h2 h3 ⊢
        refine ⟨by omega, by omega, by rw [h3]; omega⟩
      · obtain ⟨h1, h2, h3⟩ := ih (-1) (if se % 2 = 0 then theta + 5 else theta)
          (if se % 2 = 0 then fact + 3/10 else fact) (se + 1) (counter + 1) (Or.inl rfl)
        norm_num [Option.toList, Option.isSome] at h1 h2 h3 ⊢
        refine ⟨by omega, by omega, by rw [h3]; omega⟩

theorem augSiteImages_spec (target : ℤ) (label date : String) (m : ℕ) (theta0 : ℤ) (fact0 : ℚ)
    (imgs : List String) : ∀ (siteIndex : ℕ) (counter : ℤ),
    (augSiteImages target label date m theta0 fact0 imgs siteIndex counter).1.length
        = min (m * 2 * imgs.length) (target - counter + 1).toNat
      ∧ (augSiteImages target label date m theta0 fact0 imgs siteIndex counter).2.1
        = counter + ((min (m * 2 * imgs.length) (target - counter + 1).toNat : ℕ) : ℤ)
      ∧ ((augSiteImages target label date m theta0 fact0 imgs siteIndex counter).2.2 = true
        ↔ (target - counter + 1 < ((m * 2 * imgs.length : ℕ) : ℤ) ∧ 0 < m * 2 * imgs.length)) := by
  induction imgs with
  | nil =>
    intro siteIndex counter
    simp [augSiteImages]
  | cons img rest ih =>
    intro siteIndex counter
    obtain ⟨a1, a2, a3⟩ := augVariants_spec target label date siteIndex img
      (List.range (m * 2)) (-1) theta0 fact0 1 counter (Or.inl rfl)
    rw [List.length_range] at a1 a2 a3
    have key : m * 2 * (rest.length + 1) = m * 2 * rest.length + m * 2 := by ring
    simp only [augSiteImages, List.length_cons]
    by_cases hB : (augVariants target label date siteIndex img
        (List.range (m * 2)) (-1) theta0 fact0 1 counter).2.2 = true
    · rw [if_pos hB]
      rw [a3] at hB
      refine ⟨?_, ?_, ?_⟩
      · rw [a1]; omega
      · rw [a2]; omega
      · rw [a3]; omega
    · rw [if_neg hB]
      rw [a3] at hB
      dsimp only
      rw [a2]
      obtain ⟨b1, b2, b3⟩ := ih (siteIndex + 1)
        (counter + ((min (m * 2) (target - counter + 1).toNat : ℕ) : ℤ))
      refine ⟨?_, ?_, ?_⟩
      · simp only [List.length_append]; rw [a1, b1]; omega
      · rw [b2]; omega
      · rw [b3]; omega


theorem augGroups_spec (target : ℤ) (label date : String) (m : ℕ) (theta0 : ℤ) (fact0 : ℚ)
    (site_path : List (String × List String))
    (l : List (String × ℕ)) : ∀ (counter : ℤ),
    (augGroups target label date m theta0 fact0 site_path l counter).1.length
        = min (m * 2 * groupsSize site_path l) (target - counter + 1).toNat
      ∧ (augGroups target label date m theta0 fact0 site_path l counter).2.1
        = counter + ((min (m * 2 * groupsSize site_path l) (target - counter + 1).toNat : ℕ) : ℤ)
      ∧ ((augGroups target label date m theta0 fact0 site_path l counter).2.2 = true
        ↔ (target - counter + 1 < ((m * 2 * groupsSize site_path l : ℕ) : ℤ)
            ∧ 0 < m * 2 * groupsSize site_path l)) := by
  induction l with
  | nil =>
    intro counter
    simp [augGroups, groupsSize]
  | cons el rest ih =>
    intro counter
    obtain ⟨a1, a2, a3⟩ := augSiteImages_spec target label date m theta0 fact0
      (dictGet site_path el.1) 0 counter
    have hgs : groupsSize site_path (el :: rest)
        = (dictGet site_path el.1).length + groupsSize site_path rest := by
      simp [groupsSize]
    rw [hgs]
    have key : m * 2 * ((dictGet site_path el.1).length + groupsSize site_path rest)
        = m * 2 * (dictGet site_path el.1).length + m * 2 * groupsSize site_path rest := by ring
    simp only [augGroups]
    by_cases hB : (augSiteImages target label date m theta0 fact0
        (dictGet site_path el.1) 0 counter).2.2 = true
    · rw [if_pos hB]
      rw [a3] at hB
      refine ⟨?_, ?_, ?_⟩
      · rw [a1]; omega
      · rw [a2]; omega
      · rw [a3]; omega
    · rw [if_neg hB]
      rw [a3] at hB
      dsimp only
      rw [a2]
      obtain ⟨b1, b2, b3⟩ := ih
        (counter + ((min (m * 2 * (dictGet site_path el.1).length)
          (target - counter + 1).toNat : ℕ) : ℤ))
      refine ⟨?_, ?_, ?_⟩
      · simp only [List.length_append]; rw [a1, b1]; omega
      · rw [b2]; omega
      · rw [b3]; omega

theorem addToGroups_sizes (g : List (String × List String)) (k p : String) :
    ((addToGroups g k p).map (fun b => b.2.length)).sum
      = (g.map (fun b => b.2.length)).sum + 1 := by
  induction g with
  | nil => simp [addToGroups]
  | cons b rest ih =>
    obtain ⟨k0, ps⟩ := b
    by_cases h : k0 = k
    · simp [addToGroups, h]; omega
    · simp [addToGroups, h, ih]; omega

theorem addToGroups_keys (g : List (String × List String)) (k p : String) :
    (addToGroups g k p).map Prod.fst
      = if k ∈ g.map Prod.fst then g.map Prod.fst else g.map Prod.fst ++ [k] := by
  induction g with
  | nil => simp [addToGroups]
  | cons b rest ih =>
    obtain ⟨k0, ps⟩ := b
    by_cases h : k0 = k
    · simp [addToGroups, h]
    · simp only [addToGroups, if_neg h, List.map_cons, List.mem_cons]
      rw [ih]
      by_cases hm : k ∈ rest.map Prod.fst
      · simp [hm, Ne.symm h]
      · simp [hm, Ne.symm h]

theorem addToGroups_nodup (g : List (String × List String)) (k p : String)
    (h : (g.map Prod.fst).Nodup) : ((addToGroups g k p).map Prod.fst).Nodup := by
  rw [addToGroups_keys]
  by_cases hm : k ∈ g.map Prod.fst
  · simp [hm, h]
  · simp only [if_neg hm]
    rw [List.nodup_append]
    refine ⟨h, List.nodup_singleton k, ?_⟩
    intro a ha hk
    rw [List.mem_singleton] at hk
    subst hk
    exact hm ha

theorem groupBySite_sizes (dir : String) : ∀ (files : List String) (acc : List (String × List String)),
    ((groupBySite dir files acc).map (fun b => b.2.length)).sum
      = (acc.map (fun b => b.2.length)).sum + files.length := by
  intro files
  induction files with
  | nil => intro acc; simp [groupBySite]
  | cons f fs ih =>
    intro acc
    rw [groupBySite, ih, addToGroups_sizes]
    simp; omega

theorem groupBySite_nodup (dir : String) : ∀ (files : List String) (acc : List (String × List String)),
    (acc.map Prod.fst).Nodup → ((groupBySite dir files acc).map Prod.fst).Nodup := by
  intro files
  induction files with
  | nil => intro acc h; simpa [groupBySite] using h
  | cons f fs ih =>
    intro acc h
    rw [groupBySite]
    exact ih _ (addToGroups_nodup _ _ _ h)

theorem dictGet_mem (g : List (String × List String)) (k : String) (v : List String)
    (hnd : (g.map Prod.fst).Nodup) (hmem : (k, v) ∈ g) : dictGet g k = v := by
  induction g with
  | nil => simp at hmem
  | cons b rest ih =>
    obtain ⟨k0, v0⟩ := b
    simp only [List.map_cons, List.nodup_cons] at hnd
    rcases List.mem_cons.mp hmem with h | h
    · rw [Prod.mk.injEq] at h
      obtain ⟨hk, hv⟩ := h
      subst hk
      subst hv
      simp [dictGet]
    · have hne : k0 ≠ k := by
        intro he
        exact hnd.1 (he ▸ (List.mem_map.mpr ⟨(k, v), h, rfl⟩))
      simp only [dictGet, if_neg hne]
      exact ih hnd.2 h

theorem insertByCount_perm (x : String × ℕ) (l : List (String × ℕ)) :
    (insertByCount x l).Perm (x :: l) := by
  induction l with
  | nil => simp [insertByCount]
  | cons y ys ih =>
    by_cases h : y.2 < x.2
    · rw [insertByCount, if_pos h]
      exact (ih.cons y).trans (List.Perm.swap x y ys)
    · rw [insertByCount, if_neg h]

theorem sortDict_perm (l : List (String × ℕ)) : (SortDict l).Perm l := by
  induction l with
  | nil => simp [SortDict]
  | cons x xs ih =>
    exact (insertByCount_perm x (SortDict xs)).trans (ih.cons x)

theorem insertByCount_pairwise (x : String × ℕ) (l : List (String × ℕ))
    (h : l.Pairwise (fun a b => a.2 ≤ b.2)) :
    (insertByCount x l).Pairwise (fun a b => a.2 ≤ b.2) := by
  induction l with
  | nil => simp [insertByCount]
  | cons y ys ih =>
    rw [List.pairwise_cons] at h
    by_cases hle : y.2 < x.2
    · rw [insertByCount, if_pos hle]
      rw [List.pairwise_cons]
      refine ⟨?_, ih h.2⟩
      intro a ha
      rcases List.mem_cons.mp ((insertByCount_perm x ys).mem_iff.mp ha) with h' | h'
      · subst h'; omega
      · exact h.1 a h'
    · rw [insertByCount, if_neg hle]
      rw [List.pairwise_cons]
      refine ⟨?_, List.pairwise_cons.mpr h⟩
      intro a ha
      rcases List.mem_cons.mp ha with h' | h'
      · subst h'; omega
      · exact le_trans (by omega) (h.1 a h')

theorem sortDict_pairwise (l : List (String × ℕ)) :
    (SortDict l).Pairwise (fun a b => a.2 ≤ b.2) := by
  induction l with
  | nil => simp [SortDict]
  | cons x xs ih => exact insertByCount_pairwise x (SortDict xs) ih

theorem groupsSize_sorted (dir : String) (files : List String) :
    groupsSize (siteGroups dir files) (sortedSiteList dir files) = files.length := by
  have hnd : ((siteGroups dir files).map Prod.fst).Nodup :=
    groupBySite_nodup dir files [] (by simp)
  have hmem : ∀ el ∈ sortedSiteList dir files,
      (dictGet (siteGroups dir files) el.1).length = el.2 := by
    intro el hel
    have hel' : el ∈ siteIdsCount dir files :=
      (sortDict_perm (siteIdsCount dir files)).mem_iff.mp hel
    obtain ⟨b, hb, hbe⟩ := List.mem_map.mp hel'
    subst hbe
    rw [dictGet_mem (siteGroups dir files) b.1 b.2 hnd hb]
  rw [groupsSize]
  rw [List.map_congr_left hmem]
  rw [sortedSiteList]
  rw [((sortDict_perm (siteIdsCount dir files)).map Prod.snd).sum_eq]
  rw [siteIdsCount, List.map_map]
  have := groupBySite_sizes dir files []
  simpa [siteGroups] using this

theorem dataAugmentation_length (t : ℤ) (dir label date : String) (m : ℕ) (theta0 : ℤ)
    (fact0 : ℚ) (files : List String) :
    (DataAugmentation t dir label date m theta0 fact0 files).length
      = min (m * 2 * files.length) t.toNat := by
  obtain ⟨h1, _, _⟩ := augGroups_spec t label date m theta0 fact0
    (siteGroups dir files) (sortedSiteList dir files) 1
  rw [DataAugmentation, h1, groupsSize_sorted]
  congr 1
  omega

/-! ## Counting the categorical sample -/

theorem count_partition (l : List ℕ) (h : ∀ x ∈ l, x = 1 ∨ x = 2 ∨ x = 3) :
    l.count 1 + l.count 2 + l.count 3 = l.length := by
  induction l with
  | nil => simp
  | cons x xs ih =>
    have hx := h x (List.mem_cons_self x xs)
    have ih' := ih (fun y hy => h y (List.mem_cons_of_mem x hy))
    rcases hx with h1 | h2 | h3 <;> subst_vars <;>
      simp [List.count_cons] <;> omega

theorem drawSample_mem (oracle : ℕ → Fin 3) (n : ℕ) :
    ∀ x ∈ drawSample oracle n, x = 1 ∨ x = 2 ∨ x = 3 := by
  intro x hx
  rw [drawSample] at hx
  obtain ⟨i, _, hix⟩ := List.mem_map.mp hx
  have := (oracle i).isLt
  omega

theorem tallySample_drawSample_sum (oracle : ℕ → Fin 3) (n : ℕ) :
    (tallySample (drawSample oracle n)).sum = n := by
  rw [tallySample]
  simp only [List.sum_cons, List.sum_nil]
  have := count_partition (drawSample oracle n) (drawSample_mem oracle n)
  rw [drawSample] at this ⊢
  simp only [List.length_map, List.length_range] at this
  omega

/-! ## The normalised complement probabilities -/

theorem normalizedProbs_closed (s1 s2 s3 : ℕ) (hpos : 0 < s1 + s2 + s3) :
    normalizedProbs s1 s2 s3 (s1 + s2 + s3)
      = some ((1 - (s1 : ℚ) / ((s1 + s2 + s3 : ℕ) : ℚ)) / 2,
          (1 - (s2 : ℚ) / ((s1 + s2 + s3 : ℕ) : ℚ)) / 2,
          (1 - (s3 : ℚ) / ((s1 + s2 + s3 : ℕ) : ℚ)) / 2) := by
  have hTe : ((s1 + s2 + s3 : ℕ) : ℚ) = (s1 : ℚ) + (s2 : ℚ) + (s3 : ℚ) := by
    push_cast
    ring
  have hT : (s1 : ℚ) + (s2 : ℚ) + (s3 : ℚ) ≠ 0 := by
    rw [← hTe]
    exact Nat.cast_ne_zero.mpr (by omega)
  have hpt : (1 - (s1 : ℚ) / ((s1 + s2 + s3 : ℕ) : ℚ))
      + (1 - (s2 : ℚ) / ((s1 + s2 + s3 : ℕ) : ℚ))
      + (1 - (s3 : ℚ) / ((s1 + s2 + s3 : ℕ) : ℚ)) = 2 := by
    rw [hTe]
    field_simp
    ring
  simp only [normalizedProbs]
  rw [if_neg (by rw [hTe]; exact hT), hpt]
  rw [if_neg (by norm_num)]

/-- A zero reference-category count makes the first probability division
raise `ZeroDivisionError`. -/
theorem normalizedProbs_total_zero (s1 s2 s3 : ℕ) :
    normalizedProbs s1 s2 s3 0 = none := by
  simp [normalizedProbs]

/-! ## Dimension analysis of the transform pipeline -/

theorem get_center_eq (n : ℕ) : Get_center n = (n : ℤ) / 2 := by
  rw [Get_center, Int.ceil_eq_iff]
  have hk1 : 2 * ((n : ℤ) / 2) ≤ (n : ℤ) := by omega
  have hk2 : (n : ℤ) ≤ 2 * ((n : ℤ) / 2) + 1 := by omega
  constructor
  · rw [sub_lt_iff_lt_add, show ((n : ℚ) - 1) / 2 + 1 = ((n : ℚ) + 1) / 2 by ring,
      lt_div_iff (by norm_num : (0:ℚ) < 2)]
    have h : ((n : ℤ) / 2) * 2 < (n : ℤ) + 1 := by omega
    exact_mod_cast h
  · rw [div_le_iff (by norm_num : (0:ℚ) < 2)]
    have h : (n : ℤ) - 1 ≤ ((n : ℤ) / 2) * 2 := by omega
    exact_mod_cast h

theorem cvRound_ge_floor (q : ℚ) : ⌊q⌋ ≤ cvRound q := by
  rw [cvRound]
  split_ifs <;> omega

theorem npSliceLen_center (U d : ℕ) (hdU : d ≤ U) :
    npSliceLen U (Get_center U - Get_center d) (Get_center U + Get_center d) = 2 * (d / 2) := by
  rw [get_center_eq, get_center_eq, npSliceLen]
  simp only
  split_ifs <;> omega

/-! ## Claim theorems -/

/-- C4 counterexample: in branch 1 past the gate with category 2 empty, the
very first probability computation divides by `category_2_count = 0` and
raises `ZeroDivisionError` before the validation print ever runs, so no
unbound-name error occurs at that print. -/
theorem c4_zero_division_counterexample :
    cat2Count ⟨["7_a.JPG"], [], [], [], [], []⟩ < cat1Count ⟨["7_a.JPG"], [], [], [], [], []⟩
      ∧ ¬ (cat1Count ⟨["7_a.JPG"], [], [], [], [], []⟩ * TOTAL_MULTIPLIER
            < cat1Count ⟨["7_a.JPG"], [], [], [], [], []⟩
              - cat2Count ⟨["7_a.JPG"], [], [], [], [], []⟩)
      ∧ LabelBalancer "ds" ⟨["7_a.JPG"], [], [], [], [], []⟩ "010124" (fun _ => 0)
          = { copied := true, augWrites := [], outcome := .zeroDivisionError }
      ∧ (LabelBalancer "ds" ⟨["7_a.JPG"], [], [], [], [], []⟩ "010124" (fun _ => 0)).outcome
          ≠ .unboundLocalError "category_1_count_split" := by
  with_unfolding_all decide

/-- C4 amended: in the branch where category 1 has more images than category 2,
past the feasibility gate, execution never reaches the augmentation dispatch:
when category 2 is nonempty, the validation print's read of the local
`category_1_count_split` — assigned only in the opposite branch — raises the
unbound-name error (originals copied, nothing augmented); when category 2 is
empty, a `ZeroDivisionError` in the probability computation preempts even
that print. -/
theorem c4_amended_unbound_local_in_branch1 (ds : String) (ls : Listings) (date : String)
    (oracle : ℕ → Fin 3) (hgt : cat2Count ls < cat1Count ls)
    (hg : ¬ (cat1Count ls * TOTAL_MULTIPLIER < cat1Count ls - cat2Count ls)) :
    (cat2Count ls ≠ 0 →
        LabelBalancer ds ls date oracle
          = { copied := true, augWrites := [],
              outcome := .unboundLocalError "category_1_count_split" })
      ∧ (cat2Count ls = 0 →
        LabelBalancer ds ls date oracle
          = { copied := true, augWrites := [], outcome := .zeroDivisionError }) := by
  simp only [LabelBalancer]
  rw [if_pos hgt, if_neg (by simpa [feasGate] using hg)]
  have hsplit : cat2Count ls = ls.l4.length + ls.l5.length + ls.l6.length := rfl
  constructor
  · intro hne
    rw [hsplit]
    rw [normalizedProbs_closed ls.l4.length ls.l5.length ls.l6.length (by omega)]
  · intro hzero
    rw [hzero, normalizedProbs_total_zero]

/-- Witness for C4 amended, exercising both error paths: category 2 nonempty
gives the unbound-name error, category 2 empty the division error. -/
theorem c4_amended_unbound_local_in_branch1_witness :
    (cat2Count ⟨["7_a.JPG", "7_b.JPG"], [], [], ["8_a.JPG"], [], []⟩
          < cat1Count ⟨["7_a.JPG", "7_b.JPG"], [], [], ["8_a.JPG"], [], []⟩
      ∧ cat2Count ⟨["7_a.JPG", "7_b.JPG"], [], [], ["8_a.JPG"], [], []⟩ ≠ 0
      ∧ LabelBalancer "ds" ⟨["7_a.JPG", "7_b.JPG"], [], [], ["8_a.JPG"], [], []⟩ "010124"
            (fun _ => 0)
          = { copied := true, augWrites := [],
              outcome := .unboundLocalError "category_1_count_split" })
      ∧ (cat2Count ⟨["7_a.JPG"], [], [], [], [], []⟩ = 0
      ∧ LabelBalancer "ds" ⟨["7_a.JPG"], [], [], [], [], []⟩ "010124" (fun _ => 0)
          = { copied := true, augWrites := [], outcome := .zeroDivisionError }) :=
  ⟨⟨by decide, by decide,
    (c4_amended_unbound_local_in_branch1 "ds" ⟨["7_a.JPG", "7_b.JPG"], [], [], ["8_a.JPG"], [], []⟩
      "010124" (fun _ => 0) (by decide) (by decide)).1 (by decide)⟩,
   by decide,
   (c4_amended_unbound_local_in_branch1 "ds" ⟨["7_a.JPG"], [], [], [], [], []⟩
      "010124" (fun _ => 0) (by decide) (by decide)).2 (by decide)⟩

/-- C10: in the branch where category 1's count strictly exceeds category 2's,
the feasibility gate `category_1_count * TOTAL_MULTIPLIER < deficit` can never
fire for any multiplier at least 1, so that branch always proceeds past the
gate and the infeasibility abort is unreachable there. -/
theorem c10_branch1_gate_unreachable :
    (∀ (tm c1 c2 : ℕ), 1 ≤ tm → c2 < c1 → feasGate tm c1 (c1 - c2) = false)
      ∧ (∀ (ds : String) (ls : Listings) (date : String) (oracle : ℕ → Fin 3),
          cat2Count ls < cat1Count ls →
          (LabelBalancer ds ls date oracle).outcome ≠ Outcome.abortedInfeasible) := by
  have hgate : ∀ (tm c1 c2 : ℕ), 1 ≤ tm → c2 < c1 → feasGate tm c1 (c1 - c2) = false := by
    intro tm c1 c2 htm hlt
    have hmul : c1 * 1 ≤ c1 * tm := Nat.mul_le_mul_left c1 htm
    simp only [feasGate, decide_eq_false_iff_not]
    omega
  refine ⟨hgate, ?_⟩
  intro ds ls date oracle hlt
  simp only [LabelBalancer]
  rw [if_pos hlt, if_neg ?hg]
  case hg =>
    rw [hgate TOTAL_MULTIPLIER (cat1Count ls) (cat2Count ls) (by norm_num [TOTAL_MULTIPLIER, MULTIPLIER]) hlt]
    exact Bool.false_ne_true
  cases hnp : normalizedProbs ls.l4.length ls.l5.length ls.l6.length (cat2Count ls) with
  | none => intro hc; exact Outcome.noConfusion hc
  | some q => intro hc; exact Outcome.noConfusion hc

/-- Witness for C10 at a concrete multiplier, counts and input. -/
theorem c10_branch1_gate_unreachable_witness :
    (1 ≤ 13 ∧ 3 < 10 ∧ feasGate 13 10 (10 - 3) = false)
      ∧ (cat2Count ⟨["7_a.JPG"], [], [], [], [], []⟩ < cat1Count ⟨["7_a.JPG"], [], [], [], [], []⟩
          ∧ (LabelBalancer "ds" ⟨["7_a.JPG"], [], [], [], [], []⟩ "010124" (fun _ => 0)).outcome
              ≠ Outcome.abortedInfeasible) :=
  ⟨⟨by norm_num, by norm_num, c10_branch1_gate_unreachable.1 13 10 3 (by norm_num) (by norm_num)⟩,
   by decide,
   c10_branch1_gate_unreachable.2 "ds" ⟨["7_a.JPG"], [], [], [], [], []⟩ "010124" (fun _ => 0)
     (by decide)⟩

/-- C2 counterexample: with category 1 empty and category 2 holding one image,
the non-deficient category's capacity `1 * 13` is not below the deficit `1`,
yet the run aborts, because the gate multiplies category 1's count in this
branch too. -/
theorem c2_gate_counterexample :
    LabelBalancer "ds" ⟨[], [], [], ["8_a.JPG"], [], []⟩ "010124" (fun _ => 0)
        = { copied := false, augWrites := [], outcome := .abortedInfeasible }
      ∧ ¬ (cat2Count ⟨[], [], [], ["8_a.JPG"], [], []⟩ * TOTAL_MULTIPLIER
            < categoryDeficit ⟨[], [], [], ["8_a.JPG"], [], []⟩)
      ∧ cat1Count ⟨[], [], [], ["8_a.JPG"], [], []⟩
          < cat2Count ⟨[], [], [], ["8_a.JPG"], [], []⟩ := by
  with_unfolding_all decide

/-- C2 amended: the run aborts, writing nothing, exactly when
`category_1_count * TOTAL_MULTIPLIER < deficit`; the multiplied count is
category 1's in both branches (the non-deficient category when category 1 is
larger, but the deficient one when category 2 is larger). -/
theorem c2_amended_gate (ds : String) (ls : Listings) (date : String) (oracle : ℕ → Fin 3) :
    ((LabelBalancer ds ls date oracle).outcome = Outcome.abortedInfeasible
        ↔ cat1Count ls * TOTAL_MULTIPLIER < categoryDeficit ls)
      ∧ ((LabelBalancer ds ls date oracle).outcome = Outcome.abortedInfeasible →
          LabelBalancer ds ls date oracle
            = { copied := false, augWrites := [], outcome := .abortedInfeasible }) := by
  simp only [LabelBalancer, categoryDeficit]
  by_cases hgt : cat1Count ls > cat2Count ls
  · rw [if_pos hgt, if_pos hgt]
    by_cases hg : cat1Count ls * TOTAL_MULTIPLIER < cat1Count ls - cat2Count ls
    · rw [if_pos (by simpa [feasGate] using hg)]
      exact ⟨⟨fun _ => hg, fun _ => rfl⟩, fun _ => rfl⟩
    · rw [if_neg (by simpa [feasGate] using hg)]
      cases hnp : normalizedProbs ls.l4.length ls.l5.length ls.l6.length (cat2Count ls) with
      | none =>
        refine ⟨⟨fun hc => by simp at hc, fun hc => absurd hc hg⟩, fun hc => by simp at hc⟩
      | some q =>
        refine ⟨⟨fun hc => by simp at hc, fun hc => absurd hc hg⟩, fun hc => by simp at hc⟩
  · rw [if_neg hgt, if_neg hgt]
    by_cases hg : cat1Count ls * TOTAL_MULTIPLIER < cat2Count ls - cat1Count ls
    · rw [if_pos (by simpa [feasGate] using hg)]
      exact ⟨⟨fun _ => hg, fun _ => rfl⟩, fun _ => rfl⟩
    · rw [if_neg (by simpa [feasGate] using hg)]
      cases hnp : normalizedProbs ls.l1.length ls.l2.length ls.l3.length (cat1Count ls) with
      | none =>
        refine ⟨⟨fun hc => by simp at hc, fun hc => absurd hc hg⟩, fun hc => by simp at hc⟩
      | some q =>
        refine ⟨⟨fun hc => by simp at hc, fun hc => absurd hc hg⟩, fun hc => by simp at hc⟩

/-- Witness for C2 amended at a concrete aborting input. -/
theorem c2_amended_gate_witness :
    ((LabelBalancer "ds" ⟨[], [], [], ["8_a.JPG"], [], []⟩ "010124" (fun _ => 0)).outcome
        = Outcome.abortedInfeasible
      ↔ cat1Count ⟨[], [], [], ["8_a.JPG"], [], []⟩ * TOTAL_MULTIPLIER
          < categoryDeficit ⟨[], [], [], ["8_a.JPG"], [], []⟩)
      ∧ LabelBalancer "ds" ⟨[], [], [], ["8_a.JPG"], [], []⟩ "010124" (fun _ => 0)
          = { copied := false, augWrites := [], outcome := .abortedInfeasible } :=
  ⟨(c2_amended_gate "ds" ⟨[], [], [], ["8_a.JPG"], [], []⟩ "010124" (fun _ => 0)).1,
   (c2_amended_gate "ds" ⟨[], [], [], ["8_a.JPG"], [], []⟩ "010124" (fun _ => 0)).2
     (by with_unfolding_all decide)⟩

/-- C5: Scenario C — a single site group of 4 images, multiplier 6,
target 5: the scheduler writes exactly the five variants
(5°, plain), (5°, flipped), (10°, plain), (10°, flipped), (15°, plain) in
that order, all drawn from the site group's images in listing order (the 12
variants of the first listed image are consumed first, so all five land on
it), and stops mid-image without producing a sixth variant. -/
theorem c5_scenario_c :
    DataAugmentation 5 "d" "L4" "010124" 6 5 (13/10)
        ["7_a.JPG", "7_b.JPG", "7_c.JPG", "7_d.JPG"]
      = [⟨"d/7_a.JPG", "7_D010124_010124_0_0_ROT_AUG_L4.JPG", 5, 13/10, false⟩,
         ⟨"d/7_a.JPG", "7_D010124_010124_0_1_ROT_AUG_L4.JPG", 5, 13/10, true⟩,
         ⟨"d/7_a.JPG", "7_D010124_010124_0_2_ROT_AUG_L4.JPG", 10, 16/10, false⟩,
         ⟨"d/7_a.JPG", "7_D010124_010124_0_3_ROT_AUG_L4.JPG", 10, 16/10, true⟩,
         ⟨"d/7_a.JPG", "7_D010124_010124_0_4_ROT_AUG_L4.JPG", 15, 19/10, false⟩] := by
  with_unfolding_all decide

/-- C9: for every source listing and every target at most zero, the scheduler
performs no write at all: the counter starts at 1, so the very first check
`counter > images_to_augment` already returns. -/
theorem c9_nonpositive_target_writes_nothing (t : ℤ) (ht : t ≤ 0)
    (dir label date : String) (m : ℕ) (theta0 : ℤ) (fact0 : ℚ) (files : List String) :
    DataAugmentation t dir label date m theta0 fact0 files = [] := by
  have hlen := dataAugmentation_length t dir label date m theta0 fact0 files
  have hzero : (DataAugmentation t dir label date m theta0 fact0 files).length = 0 := by
    rw [hlen]
    omega
  exact List.length_eq_zero.mp hzero

/-- Witness for C9 at target 0 on a nonempty listing. -/
theorem c9_nonpositive_target_writes_nothing_witness :
    (0 : ℤ) ≤ 0 ∧ DataAugmentation 0 "d" "L1" "010124" 6 5 (13/10) ["7_a.JPG"] = [] :=
  ⟨le_refl 0,
   c9_nonpositive_target_writes_nothing 0 (le_refl 0) "d" "L1" "010124" 6 5 (13/10) ["7_a.JPG"]⟩

/-- C8: the site list the scheduler iterates over is the site-count dict
sorted by count: it is a permutation of the per-site counts, it is ordered by
ascending image count, and a site group with strictly fewer images occupies an
earlier position than any site group with strictly more images. -/
theorem c8_sites_visited_in_ascending_count_order (label_dir : String) (files : List String) :
    (sortedSiteList label_dir files).Pairwise (fun a b => a.2 ≤ b.2)
      ∧ (sortedSiteList label_dir files).Perm (siteIdsCount label_dir files)
      ∧ ∀ (i j : Fin (sortedSiteList label_dir files).length),
          ((sortedSiteList label_dir files).get i).2 < ((sortedSiteList label_dir files).get j).2
            → (i : ℕ) < (j : ℕ) := by
  have hpw : (sortedSiteList label_dir files).Pairwise (fun a b => a.2 ≤ b.2) :=
    sortDict_pairwise _
  refine ⟨hpw, sortDict_perm _, ?_⟩
  intro i j hlt
  by_contra hle
  push_neg at hle
  rcases Nat.lt_or_ge (j : ℕ) (i : ℕ) with h | h
  · have h2 := List.pairwise_iff_get.mp hpw j i (Fin.lt_def.mpr h)
    omega
  · have hij : i = j := Fin.ext (by omega)
    subst hij
    omega

/-- Witness for C8: on a listing with sites of sizes 2 and 1, the smaller site
comes first. -/
theorem c8_sites_visited_in_ascending_count_order_witness :
    (sortedSiteList "d" ["8_a.JPG", "8_b.JPG", "7_a.JPG"]).Pairwise (fun a b => a.2 ≤ b.2)
      ∧ (sortedSiteList "d" ["8_a.JPG", "8_b.JPG", "7_a.JPG"]).Perm
          (siteIdsCount "d" ["8_a.JPG", "8_b.JPG", "7_a.JPG"])
      ∧ (0 : ℕ) < (1 : ℕ) :=
  ⟨(c8_sites_visited_in_ascending_count_order "d" ["8_a.JPG", "8_b.JPG", "7_a.JPG"]).1,
   (c8_sites_visited_in_ascending_count_order "d" ["8_a.JPG", "8_b.JPG", "7_a.JPG"]).2.1,
   (c8_sites_visited_in_ascending_count_order "d" ["8_a.JPG", "8_b.JPG", "7_a.JPG"]).2.2
     ⟨0, by decide⟩ ⟨1, by decide⟩ (by decide)⟩

/-- C6: however many categorical draws are taken (whatever the weights used to
take them), tallying the occurrences of labels 1, 2 and 3 partitions the
sample, so the three per-label allocation counts always sum to exactly the
deficit that was sampled. -/
theorem c6_allocation_sums_to_deficit (deficit : ℕ) (oracle : ℕ → Fin 3) :
    (tallySample (drawSample oracle deficit)).sum = deficit :=
  tallySample_drawSample_sum oracle deficit

/-- C7: for per-label counts with positive total, the probability computation
succeeds (no ZeroDivisionError) and each label's sampling probability is its
complement weight `1 - count_i / total` divided by the sum of the three
complement weights; the three probabilities sum to 1, and a label with a
smaller count gets a probability at least as large as a label with a larger
count. -/
theorem c7_complement_probabilities (s1 s2 s3 : ℕ) (hpos : 0 < s1 + s2 + s3) :
    ∃ q1 q2 q3 : ℚ,
      normalizedProbs s1 s2 s3 (s1 + s2 + s3) = some (q1, q2, q3)
        ∧ q1 = (1 - (s1 : ℚ) / ((s1 + s2 + s3 : ℕ) : ℚ))
            / ((1 - (s1 : ℚ) / ((s1 + s2 + s3 : ℕ) : ℚ))
              + (1 - (s2 : ℚ) / ((s1 + s2 + s3 : ℕ) : ℚ))
              + (1 - (s3 : ℚ) / ((s1 + s2 + s3 : ℕ) : ℚ)))
        ∧ q2 = (1 - (s2 : ℚ) / ((s1 + s2 + s3 : ℕ) : ℚ))
            / ((1 - (s1 : ℚ) / ((s1 + s2 + s3 : ℕ) : ℚ))
              + (1 - (s2 : ℚ) / ((s1 + s2 + s3 : ℕ) : ℚ))
              + (1 - (s3 : ℚ) / ((s1 + s2 + s3 : ℕ) : ℚ)))
        ∧ q3 = (1 - (s3 : ℚ) / ((s1 + s2 + s3 : ℕ) : ℚ))
            / ((1 - (s1 : ℚ) / ((s1 + s2 + s3 : ℕ) : ℚ))
              + (1 - (s2 : ℚ) / ((s1 + s2 + s3 : ℕ) : ℚ))
              + (1 - (s3 : ℚ) / ((s1 + s2 + s3 : ℕ) : ℚ)))
        ∧ q1 + q2 + q3 = 1
        ∧ (s1 ≤ s2 → q2 ≤ q1) ∧ (s2 ≤ s1 → q1 ≤ q2)
        ∧ (s2 ≤ s3 → q3 ≤ q2) ∧ (s3 ≤ s2 → q2 ≤ q3)
        ∧ (s1 ≤ s3 → q3 ≤ q1) ∧ (s3 ≤ s1 → q1 ≤ q3) := by
  have hTe : ((s1 + s2 + s3 : ℕ) : ℚ) = (s1 : ℚ) + (s2 : ℚ) + (s3 : ℚ) := by
    push_cast
    ring
  have hT : (0 : ℚ) < ((s1 + s2 + s3 : ℕ) : ℚ) := by
    exact_mod_cast hpos
  have hpt : (1 - (s1 : ℚ) / ((s1 + s2 + s3 : ℕ) : ℚ))
      + (1 - (s2 : ℚ) / ((s1 + s2 + s3 : ℕ) : ℚ))
      + (1 - (s3 : ℚ) / ((s1 + s2 + s3 : ℕ) : ℚ)) = 2 := by
    rw [hTe]
    have hne : (s1 : ℚ) + (s2 : ℚ) + (s3 : ℚ) ≠ 0 := by
      rw [← hTe]
      exact ne_of_gt hT
    field_simp
    ring
  have hmono : ∀ a b : ℕ, a ≤ b →
      (1 - (b : ℚ) / ((s1 + s2 + s3 : ℕ) : ℚ)) / 2
        ≤ (1 - (a : ℚ) / ((s1 + s2 + s3 : ℕ) : ℚ)) / 2 := by
    intro a b hab
    have hab' : (a : ℚ) ≤ (b : ℚ) := by exact_mod_cast hab
    have hdiv : (a : ℚ) / ((s1 + s2 + s3 : ℕ) : ℚ) ≤ (b : ℚ) / ((s1 + s2 + s3 : ℕ) : ℚ) := by
      gcongr
    linarith
  refine ⟨(1 - (s1 : ℚ) / ((s1 + s2 + s3 : ℕ) : ℚ)) / 2,
    (1 - (s2 : ℚ) / ((s1 + s2 + s3 : ℕ) : ℚ)) / 2,
    (1 - (s3 : ℚ) / ((s1 + s2 + s3 : ℕ) : ℚ)) / 2,
    normalizedProbs_closed s1 s2 s3 hpos,
    by rw [hpt], by rw [hpt], by rw [hpt], by linarith [hpt],
    ?_, ?_, ?_, ?_, ?_, ?_⟩ <;>
    intro hle <;> exact hmono _ _ hle

/-- Witness for C7 at counts (1, 2, 3): the probabilities exist, sum to 1,
and the smaller-count label 1 gets at least the probability of label 2. -/
theorem c7_complement_probabilities_witness :
    (0 < 1 + 2 + 3)
      ∧ (∃ q1 q2 q3 : ℚ,
          normalizedProbs 1 2 3 (1 + 2 + 3) = some (q1, q2, q3)
            ∧ q1 + q2 + q3 = 1 ∧ q2 ≤ q1) := by
  refine ⟨by norm_num, ?_⟩
  obtain ⟨q1, q2, q3, heq, he1, he2, he3, hsum, hm12, hrest⟩ :=
    c7_complement_probabilities 1 2 3 (by norm_num)
  exact ⟨q1, q2, q3, heq, hsum, hm12 (by norm_num)⟩

/-- C3 counterexample: a 3-by-3 input with the default angle and zoom comes
back 2-by-2, because `Center_crop` slices `2*ceil((dim-1)/2)` pixels, one
short of an odd dimension. -/
theorem c3_transform_dims_counterexample :
    Data_augmentation 3 3 5 (13/10) false = (2, 2)
      ∧ Data_augmentation 3 3 5 (13/10) false ≠ (3, 3) := by
  with_unfolding_all decide

/-- C3 amended: for every input size, angle and flip, and every zoom factor at
least 1 (the pipeline always uses at least 1.3), the output is
`2*floor(h/2)` by `2*floor(w/2)` — identical to the input exactly when both
input dimensions are even, and one pixel short in each odd dimension. -/
theorem c3_amended_transform_dims (h w : ℕ) (theta : ℤ) (fact : ℚ) (flipped : Bool)
    (hf : 1 ≤ fact) :
    Data_augmentation h w theta fact flipped = (2 * (h / 2), 2 * (w / 2)) := by
  have axis : ∀ d : ℕ, d ≤ ((cvRound (((d + 2 * (d / 2) : ℕ) : ℚ) * fact)).toNat) := by
    intro d
    have hH : (0 : ℚ) ≤ ((d + 2 * (d / 2) : ℕ) : ℚ) := Nat.cast_nonneg _
    have h1 : ((d + 2 * (d / 2) : ℕ) : ℚ) ≤ ((d + 2 * (d / 2) : ℕ) : ℚ) * fact :=
      le_mul_of_one_le_right hH hf
    have h2 : ((d + 2 * (d / 2) : ℕ) : ℤ) ≤ ⌊((d + 2 * (d / 2) : ℕ) : ℚ) * fact⌋ :=
      Int.le_floor.mpr (by exact_mod_cast h1)
    have h3 := cvRound_ge_floor (((d + 2 * (d / 2) : ℕ) : ℚ) * fact)
    have h4 : d ≤ d + 2 * (d / 2) := by omega
    omega
  cases flipped <;>
    simp only [Data_augmentation, Flip_img, Pad_img, Rotate_img, Upsample_img, Center_crop] <;>
    rw [npSliceLen_center _ h (axis h), npSliceLen_center _ w (axis w)] <;>
    simp

/-- Witness for C3 amended: an even-dimension input keeps its size. -/
theorem c3_amended_transform_dims_witness :
    (1 : ℚ) ≤ 13/10 ∧ Data_augmentation 600 200 5 (13/10) true = (600, 200) := by
  refine ⟨by norm_num, ?_⟩
  rw [c3_amended_transform_dims 600 200 5 (13/10) true (by norm_num)]

/-- C1 counterexample: with category 1 split (1,0,0) and category 2 holding 3
images, the run completes without aborting, but the deficit of 2 is allocated
to labels 2 and 3 (label 1 has sampling probability 0, labels 2 and 3 have
probability 1/2 each), which contain no source images at all, so no
augmentation is written and the output categories stay at 1 versus 3. -/
theorem c1_counterexample :
    (LabelBalancer "ds" ⟨["7_a.JPG"], [], [], ["8_a.JPG", "8_b.JPG"], ["9_a.JPG"], []⟩ "010124"
        (fun i => if i = 0 then 1 else 2)).outcome = Outcome.completed
      ∧ outCount1 ⟨["7_a.JPG"], [], [], ["8_a.JPG", "8_b.JPG"], ["9_a.JPG"], []⟩
          (LabelBalancer "ds" ⟨["7_a.JPG"], [], [], ["8_a.JPG", "8_b.JPG"], ["9_a.JPG"], []⟩ "010124"
            (fun i => if i = 0 then 1 else 2)) = 1
      ∧ outCount2 ⟨["7_a.JPG"], [], [], ["8_a.JPG", "8_b.JPG"], ["9_a.JPG"], []⟩
          (LabelBalancer "ds" ⟨["7_a.JPG"], [], [], ["8_a.JPG", "8_b.JPG"], ["9_a.JPG"], []⟩ "010124"
            (fun i => if i = 0 then 1 else 2)) = 3
      ∧ outCount1 ⟨["7_a.JPG"], [], [], ["8_a.JPG", "8_b.JPG"], ["9_a.JPG"], []⟩
          (LabelBalancer "ds" ⟨["7_a.JPG"], [], [], ["8_a.JPG", "8_b.JPG"], ["9_a.JPG"], []⟩ "010124"
            (fun i => if i = 0 then 1 else 2))
        ≠ outCount2 ⟨["7_a.JPG"], [], [], ["8_a.JPG", "8_b.JPG"], ["9_a.JPG"], []⟩
          (LabelBalancer "ds" ⟨["7_a.JPG"], [], [], ["8_a.JPG", "8_b.JPG"], ["9_a.JPG"], []⟩ "010124"
            (fun i => if i = 0 then 1 else 2))
      ∧ drawSample (fun i => if i = 0 then 1 else 2)
          (cat2Count ⟨["7_a.JPG"], [], [], ["8_a.JPG", "8_b.JPG"], ["9_a.JPG"], []⟩
            - cat1Count ⟨["7_a.JPG"], [], [], ["8_a.JPG", "8_b.JPG"], ["9_a.JPG"], []⟩) = [2, 3]
      ∧ normalizedProbs 1 0 0 (cat1Count ⟨["7_a.JPG"], [], [], ["8_a.JPG", "8_b.JPG"],
            ["9_a.JPG"], []⟩) = some (0, 1/2, 1/2)
      ∧ (0 : ℚ) < 1/2 := by
  with_unfolding_all decide

theorem filter_label_le (k : ℕ) (l : List AugWrite) (hk : k ≤ 3) :
    (l.map (fun w => (k, w))).filter (fun p => p.1 ≤ 3) = l.map (fun w => (k, w)) := by
  induction l with
  | nil => rfl
  | cons w ws ih =>
    simp only [List.map_cons, List.filter_cons]
    simp [hk, ih]

theorem filter_label_ge (k : ℕ) (l : List AugWrite) (hk : k < 4) :
    (l.map (fun w => (k, w))).filter (fun p => 4 ≤ p.1) = [] := by
  induction l with
  | nil => rfl
  | cons w ws ih =>
    simp only [List.map_cons, List.filter_cons]
    simp [show ¬(4 ≤ k) by omega, ih]

/-- C1 amended: a run that completes balances the two output categories
exactly when every label of the deficient category can actually supply its
allocation, i.e. each per-label allocation is at most `2 * MULTIPLIER` times
that label's image count; a label allocated beyond that capacity (for
instance an empty label directory) silently falls short, leaving the deficit
not fully covered. -/
theorem c1_amended_balance (ds : String) (ls : Listings) (date : String)
    (oracle : ℕ → Fin 3)
    (hcomp : (LabelBalancer ds ls date oracle).outcome = Outcome.completed)
    (hcap1 : (tallySample (drawSample oracle (cat2Count ls - cat1Count ls))).getD 0 0
        ≤ MULTIPLIER * 2 * ls.l1.length)
    (hcap2 : (tallySample (drawSample oracle (cat2Count ls - cat1Count ls))).getD 1 0
        ≤ MULTIPLIER * 2 * ls.l2.length)
    (hcap3 : (tallySample (drawSample oracle (cat2Count ls - cat1Count ls))).getD 2 0
        ≤ MULTIPLIER * 2 * ls.l3.length) :
    outCount1 ls (LabelBalancer ds ls date oracle)
      = outCount2 ls (LabelBalancer ds ls date oracle) := by
  by_cases hgt : cat1Count ls > cat2Count ls
  · exfalso
    simp only [LabelBalancer] at hcomp
    rw [if_pos hgt] at hcomp
    by_cases hg : feasGate TOTAL_MULTIPLIER (cat1Count ls) (cat1Count ls - cat2Count ls) = true
    · rw [if_pos hg] at hcomp
      exact Outcome.noConfusion hcomp
    · rw [if_neg hg] at hcomp
      cases hnp : normalizedProbs ls.l4.length ls.l5.length ls.l6.length (cat2Count ls) with
      | none => rw [hnp] at hcomp; exact Outcome.noConfusion hcomp
      | some q => rw [hnp] at hcomp; exact Outcome.noConfusion hcomp
  · simp only [LabelBalancer] at hcomp ⊢
    rw [if_neg hgt] at hcomp ⊢
    by_cases hg : feasGate TOTAL_MULTIPLIER (cat1Count ls) (cat2Count ls - cat1Count ls) = true
    · rw [if_pos hg] at hcomp
      exact Outcome.noConfusion hcomp
    · rw [if_neg hg] at hcomp ⊢
      cases hnp : normalizedProbs ls.l1.length ls.l2.length ls.l3.length (cat1Count ls) with
      | none => rw [hnp] at hcomp; exact Outcome.noConfusion hcomp
      | some q =>
      simp only [outCount1, outCount2]
      simp only [List.filter_append, List.length_append]
      rw [filter_label_le 1 _ (by norm_num), filter_label_le 2 _ (by norm_num),
        filter_label_le 3 _ (by norm_num),
        filter_label_ge 1 _ (by norm_num), filter_label_ge 2 _ (by norm_num),
        filter_label_ge 3 _ (by norm_num)]
      simp only [List.length_map, List.length_nil]
      rw [dataAugmentation_length, dataAugmentation_length, dataAugmentation_length]
      have hsum := tallySample_drawSample_sum oracle (cat2Count ls - cat1Count ls)
      simp only [tallySample, List.sum_cons, List.sum_nil] at hsum
      simp only [tallySample, List.getD_cons_zero, List.getD_cons_succ] at hcap1 hcap2 hcap3
      simp only [tallySample, List.getD_cons_zero, List.getD_cons_succ]
      omega

/-- Witness for C1 amended: one deficient image, allocation within capacity,
output categories both end at 2. -/
theorem c1_amended_balance_witness :
    (LabelBalancer "ds" ⟨["7_a.JPG"], [], [], ["8_a.JPG", "8_b.JPG"], [], []⟩ "010124"
        (fun _ => 0)).outcome = Outcome.completed
      ∧ outCount1 ⟨["7_a.JPG"], [], [], ["8_a.JPG", "8_b.JPG"], [], []⟩
          (LabelBalancer "ds" ⟨["7_a.JPG"], [], [], ["8_a.JPG", "8_b.JPG"], [], []⟩ "010124"
            (fun _ => 0))
        = outCount2 ⟨["7_a.JPG"], [], [], ["8_a.JPG", "8_b.JPG"], [], []⟩
          (LabelBalancer "ds" ⟨["7_a.JPG"], [], [], ["8_a.JPG", "8_b.JPG"], [], []⟩ "010124"
            (fun _ => 0)) :=
  ⟨by with_unfolding_all decide,
   c1_amended_balance "ds" ⟨["7_a.JPG"], [], [], ["8_a.JPG", "8_b.JPG"], [], []⟩ "010124"
     (fun _ => 0)
     (by with_unfolding_all decide) (by with_unfolding_all decide)
     (by with_unfolding_all decide) (by with_unfolding_all decide)⟩

